import Mathlib

/-!
Shallow embedding of the Fortress Optimizer usage-analytics engine
(`src/backend/provider_intelligence.py` and `src/backend/cost_predictor.py`)
and proofs about its specified behaviour.

Conventions of the embedding:
* Python floats are modelled as exact rationals (`ℚ`).
* Python dicts are modelled as insertion-ordered association lists.
* Ambient time (`datetime.now()`) is passed in as explicit parameters.
* A Python operation that can raise is modelled with `Except PyErr` /
  `Option`; a `none` / `.error` result models an uncaught exception.
-/

namespace Fortress

/-- Python exceptions that the embedded code can raise. -/
inductive PyErr where
  | valueError (msg : String)
  | zeroDivisionError
  | indexError
  | nameError (var : String)
  deriving DecidableEq, Repr

instance {eps alph : Type} [DecidableEq eps] [DecidableEq alph] :
    DecidableEq (Except eps alph) := fun a b =>
  match a, b with
  | .error e, .error f => decidable_of_iff (e = f) (by simp)
  | .error _, .ok _ => isFalse (by intro h; cases h)
  | .ok _, .error _ => isFalse (by intro h; cases h)
  | .ok x, .ok y => decidable_of_iff (x = y) (by simp)

/-- Python `int(x)` on a numeric value: truncation toward zero. -/
def pyInt (q : ℚ) : ℤ :=
  if 0 ≤ q then ⌊q⌋ else ⌈q⌉

/-- Round a rational to the nearest integer, ties to even
(the rounding used by Python's `round` and float formatting). -/
def roundq (q : ℚ) : ℤ :=
  let f := ⌊q⌋
  let r := q - f
  if r < 1/2 then f
  else if 1/2 < r then f + 1
  else if f % 2 = 0 then f else f + 1

/-- Python `round(q, d)`: round to `d` decimal places, ties to even. -/
def roundTo (d : ℕ) (q : ℚ) : ℚ :=
  (roundq (q * 10 ^ d) : ℚ) / 10 ^ d

/-- Render a natural number left-padded with zeros to two digits. -/
def pad2 (n : ℕ) : String :=
  if n < 10 then "0" ++ toString n else toString n

/-- Python `f"{q:.2f}"`: fixed-point rendering with two decimals. -/
def qfmt2 (q : ℚ) : String :=
  let n : ℤ := roundq (q * 100)
  let sign := if n < 0 then "-" else ""
  let m : ℕ := n.natAbs
  sign ++ toString (m / 100) ++ "." ++ pad2 (m % 100)

/-- Python `min(a, b)` on rationals (kernel-reducible; equals `min`,
see `pyminQ_eq_min`). -/
def pyminQ (a b : ℚ) : ℚ := if a ≤ b then a else b

/-- Python `min(a, b)` on integers (equals `min`, see `pyminZ_eq_min`). -/
def pyminZ (a b : ℤ) : ℤ := if a ≤ b then a else b

/-- Python `max(a, b)` on rationals (equals `max`, see `pymaxQ_eq_max`). -/
def pymaxQ (a b : ℚ) : ℚ := if b ≤ a then a else b

/-- Update the first element of a list satisfying `p` (Python mutates the
first object found by a linear scan). -/
def updateFirst (p : α → Bool) (f : α → α) : List α → List α
  | [] => []
  | x :: xs => if p x then f x :: xs else x :: updateFirst p f xs

/-- Lookup in an insertion-ordered association list (Python dict access). -/
def alookup : List (String × β) → String → Option β
  | [], _ => none
  | (k', v) :: rest, k => if k' = k then some v else alookup rest k

/-- Stable insertion respecting an ordering test: `x` is placed before the
first element `y` with `lt x y`, after every element it ties with. -/
def sInsert (lt : α → α → Bool) (x : α) : List α → List α
  | [] => [x]
  | y :: ys => if lt x y then x :: y :: ys else y :: sInsert lt x ys

/-- Stable sort (Python's `list.sort(key=...)` is stable; ties keep their
original relative order, which this insertion sort reproduces). -/
def stableSortBy (lt : α → α → Bool) (l : List α) : List α :=
  l.foldl (fun acc x => sInsert lt x acc) []

namespace ProviderIntelligence

/-- Nominal token limits of one model (`PROVIDERS[p]['models'][m]`). -/
structure ModelLimits where
  input_tokens : ℕ
  output_tokens : ℕ
  deriving DecidableEq, Repr

/-- Static configuration of one provider (`PROVIDERS[p]`). -/
structure ProviderConfig where
  models : List (String × ModelLimits)
  cost_per_1k_input : ℚ
  cost_per_1k_output : ℚ
  speed : ℕ
  quality : ℕ
  deriving DecidableEq, Repr

/-- The static provider table `ProviderIntelligence.PROVIDERS`. -/
def PROVIDERS : List (String × ProviderConfig) :=
  [ ("openai",
      { models := [("gpt-4-turbo", ⟨4096, 8192⟩), ("gpt-4", ⟨8192, 32768⟩),
                   ("gpt-3.5-turbo", ⟨4096, 4096⟩)],
        cost_per_1k_input := 0.03, cost_per_1k_output := 0.06,
        speed := 1, quality := 1 }),
    ("anthropic",
      { models := [("claude-3-opus", ⟨200000, 4096⟩), ("claude-3-sonnet", ⟨200000, 4096⟩),
                   ("claude-3-haiku", ⟨200000, 4096⟩)],
        cost_per_1k_input := 0.015, cost_per_1k_output := 0.075,
        speed := 2, quality := 2 }),
    ("google",
      { models := [("gemini-pro", ⟨32768, 8192⟩), ("gemini-1.5-pro", ⟨1000000, 4096⟩)],
        cost_per_1k_input := 0.000125, cost_per_1k_output := 0.000375,
        speed := 2, quality := 2 }),
    ("azure",
      { models := [("gpt-4-deployment", ⟨8192, 32768⟩), ("gpt-35-turbo", ⟨4096, 4096⟩)],
        cost_per_1k_input := 0.03, cost_per_1k_output := 0.06,
        speed := 1, quality := 1 }),
    ("groq",
      { models := [("mixtral-8x7b", ⟨32768, 8192⟩), ("llama2-70b", ⟨4096, 1024⟩)],
        cost_per_1k_input := 0.0005, cost_per_1k_output := 0.0015,
        speed := 3, quality := 3 }) ]

/-- One optimization-level entry of `OPTIMIZATION_LEVELS`. -/
structure LevelCfg where
  tokens_saved_pct : ℚ
  description : String
  use_case : String
  deriving DecidableEq, Repr

/-- The static table `ProviderIntelligence.OPTIMIZATION_LEVELS`. -/
def OPTIMIZATION_LEVELS : List (String × LevelCfg) :=
  [ ("conservative", ⟨0.15, "Minimal risk, 15% savings", "Critical tasks"⟩),
    ("balanced", ⟨0.28, "Recommended, 28% savings", "General use"⟩),
    ("aggressive", ⟨0.42, "Fast results, 42% savings", "Performance critical"⟩) ]

/-- Per-provider calibration record (`provider_calibration[p]`). -/
structure Calib where
  token_ratio : ℚ
  sample_count : ℕ
  cost_per_token : ℚ
  deriving DecidableEq, Repr

/-- Result dict of `estimate_provider_tokens`. -/
structure TokenEstimate where
  provider : String
  model : String
  estimated_input_tokens : ℤ
  estimated_output_tokens : ℤ
  total_tokens : ℤ
  cost_usd : ℚ
  cost_per_1k_tokens : ℚ
  tokens_per_dollar : ℚ
  deriving DecidableEq, Repr

/-- `ProviderIntelligence.estimate_provider_tokens`.  The calibration map is
the relevant component of `self`.  A raised exception is an `.error`. -/
def estimate_provider_tokens (calibration : List (String × Calib)) (text : String)
    (provider : String) (model? : Option String) : Except PyErr TokenEstimate := do
  let some config := alookup PROVIDERS provider
    | throw (.valueError ("Unknown provider: " ++ provider))
  let model ← match model? with
    | some m => pure m
    | none =>
      -- `list(provider_config['models'].keys())[0]`
      match config.models.head? with
      | some km => pure km.1
      | none => throw .indexError
  if (alookup config.models model).isNone then
    throw (.valueError ("Unknown model: " ++ model))
  -- `estimated_input_tokens = len(text) // 4`
  let base_tokens : ℤ := (text.length / 4 : ℕ)
  -- calibration: `int(estimated_input_tokens * calib.get('token_ratio', 1.0))`
  let estimated_input_tokens : ℤ :=
    match alookup calibration provider with
    | some calib => pyInt ((base_tokens : ℚ) * calib.token_ratio)
    | none => base_tokens
  -- `int(estimated_input_tokens * 0.2)`
  let estimated_output_tokens : ℤ := pyInt ((estimated_input_tokens : ℚ) * 0.2)
  let input_cost : ℚ := ((estimated_input_tokens : ℚ) / 1000) * config.cost_per_1k_input
  let output_cost : ℚ := ((estimated_output_tokens : ℚ) / 1000) * config.cost_per_1k_output
  let total_cost : ℚ := input_cost + output_cost
  let total_tokens : ℤ := estimated_input_tokens + estimated_output_tokens
  -- `(total_cost * 1000) / (estimated_input_tokens + estimated_output_tokens)`
  -- raises ZeroDivisionError when the denominator is 0 (unguarded in source)
  if total_tokens = 0 then throw .zeroDivisionError
  pure { provider := provider, model := model,
         estimated_input_tokens := estimated_input_tokens,
         estimated_output_tokens := estimated_output_tokens,
         total_tokens := total_tokens,
         cost_usd := roundTo 4 total_cost,
         cost_per_1k_tokens := roundTo 4 ((total_cost * 1000) / (total_tokens : ℚ)),
         tokens_per_dollar :=
           roundTo 2 (if 0 < total_cost then (total_tokens : ℚ) / total_cost else 0) }

/-- Provider speed rank from the static table.  Inside the recommender the
provider key always comes from `PROVIDERS`, so the lookup cannot miss. -/
def providerSpeed (p : String) : ℕ :=
  ((alookup PROVIDERS p).map (·.speed)).getD 0

/-- Provider quality rank from the static table (same remark as
`providerSpeed`). -/
def providerQuality (p : String) : ℕ :=
  ((alookup PROVIDERS p).map (·.quality)).getD 0

/-- `user_preferences` dict: keys may be absent (`dict.get` defaults). -/
structure Prefs where
  priority : Option String := none
  budget_limit : Option ℚ := none
  deriving DecidableEq, Repr

/-- One entry of the per-level optimization potential dict. -/
structure PotentialEntry where
  tokens_saved : ℤ
  tokens_saved_pct : ℤ
  cost_saved : ℚ
  cost_saved_pct : ℤ
  description : String
  deriving DecidableEq, Repr

/-- `ProviderIntelligence._get_recommendation_badge`. -/
def getRecommendationBadge (estimate : TokenEstimate) (preferences : Prefs) : String :=
  let priority := preferences.priority.getD "cost"
  if priority = "cost" && estimate.cost_usd < 0.01 then "LOWEST_COST"
  else if priority = "speed" && providerSpeed estimate.provider = 1 then "FASTEST"
  else if priority = "quality" && providerQuality estimate.provider = 1 then "BEST_QUALITY"
  else if estimate.tokens_per_dollar > 50000 then "BEST_VALUE"
  else "GOOD_CHOICE"

/-- `ProviderIntelligence._calculate_optimization_potential`. -/
def calcOptimizationPotential (estimate : TokenEstimate) : List (String × PotentialEntry) :=
  OPTIMIZATION_LEVELS.map fun kv =>
    let config := kv.2
    let tokens_saved : ℤ := pyInt ((estimate.total_tokens : ℚ) * config.tokens_saved_pct)
    let cost_saved : ℚ := ((tokens_saved : ℚ) / 1000) * estimate.cost_per_1k_tokens
    (kv.1,
      { tokens_saved := tokens_saved,
        tokens_saved_pct := pyInt (config.tokens_saved_pct * 100),
        cost_saved := roundTo 4 cost_saved,
        cost_saved_pct := pyInt (config.tokens_saved_pct * 100),
        description := config.description })

/-- `ProviderIntelligence._calculate_rank`.  The divisions
`cost/budget` and `1.0/speed` raise `ZeroDivisionError` on a zero
denominator, exactly as in Python. -/
def calculateRank (estimate : TokenEstimate) (preferences : Prefs) : Except PyErr ℚ :=
  let priority := preferences.priority.getD "cost"
  let budget_limit := preferences.budget_limit.getD 1
  if estimate.cost_usd > budget_limit then pure 0  -- affordability gate
  else if priority = "cost" then
    if budget_limit = 0 then throw .zeroDivisionError
    else pure (1 - estimate.cost_usd / budget_limit)
  else if priority = "speed" then
    if providerSpeed estimate.provider = 0 then throw .zeroDivisionError
    else pure (1 / (providerSpeed estimate.provider : ℚ))
  else if priority = "quality" then
    if providerQuality estimate.provider = 0 then throw .zeroDivisionError
    else pure (1 / (providerQuality estimate.provider : ℚ))
  else pure (estimate.tokens_per_dollar / 100000)

/-- One entry of the list returned by `get_provider_recommendations`. -/
structure Recommendation where
  provider : String
  model : String
  estimated_tokens : ℤ
  cost_usd : ℚ
  tokens_per_dollar : ℚ
  cost_per_1k_tokens : ℚ
  optimization_potential : List (String × PotentialEntry)
  recommendation : String
  rank : ℚ
  deriving DecidableEq, Repr

/-- A Python `for` loop building a list, where the body can raise: the
first exception propagates. -/
def mapExcept (f : α → Except ε β) : List α → Except ε (List β)
  | [] => .ok []
  | x :: xs => do
    let y ← f x
    let ys ← mapExcept f xs
    pure (y :: ys)

/-- The loop body of `get_provider_recommendations`: one recommendation
entry per provider. -/
def buildRecommendation (calibration : List (String × Calib)) (text : String)
    (preferences : Prefs) (kv : String × ProviderConfig) : Except PyErr Recommendation := do
    let estimate ← estimate_provider_tokens calibration text kv.1 none
    let badge := getRecommendationBadge estimate preferences
    let optimization_potential := calcOptimizationPotential estimate
    let rank ← calculateRank estimate preferences
    pure { provider := estimate.provider, model := estimate.model,
           estimated_tokens := estimate.total_tokens,
           cost_usd := estimate.cost_usd,
           tokens_per_dollar := estimate.tokens_per_dollar,
           cost_per_1k_tokens := estimate.cost_per_1k_tokens,
           optimization_potential := optimization_potential,
           recommendation := badge,
           rank := rank : Recommendation }

/-- `ProviderIntelligence.get_provider_recommendations`. -/
def get_provider_recommendations (calibration : List (String × Calib)) (text : String)
    (user_preferences : Option Prefs) : Except PyErr (List Recommendation) := do
  let preferences := user_preferences.getD { priority := some "cost", budget_limit := some 1 }
  let recommendations ← mapExcept (buildRecommendation calibration text preferences) PROVIDERS
  let priority := preferences.priority.getD "cost"
  let sorted :=
    if priority = "cost" then
      stableSortBy (fun a b => a.cost_usd < b.cost_usd) recommendations
    else if priority = "speed" then
      stableSortBy (fun a b => providerSpeed a.provider < providerSpeed b.provider) recommendations
    else if priority = "quality" then
      stableSortBy (fun a b => providerQuality a.provider < providerQuality b.provider) recommendations
    else
      -- `sort(key=..., reverse=True)`: stable descending
      stableSortBy (fun a b => b.tokens_per_dollar < a.tokens_per_dollar) recommendations
  pure (sorted.take 3)

/-- One user-history entry appended by `learn_from_optimization`. -/
structure OptRecord where
  timestamp : String
  provider : String
  tokens_estimated : ℕ
  tokens_actual : ℕ
  cost : ℚ
  optimization_level : String
  text_length : ℕ
  deriving DecidableEq, Repr

/-- Mutable state of a `ProviderIntelligence` instance. -/
structure PIState where
  user_history : List (String × List OptRecord) := []
  provider_calibration : List (String × Calib) := []
  learning_enabled : Bool := true
  deriving DecidableEq, Repr

/-- The freshly initialized calibration record. -/
def initCalib : Calib := { token_ratio := 1, sample_count := 0, cost_per_token := 0 }

/-- `ProviderIntelligence.learn_from_optimization`; `ts` is
`datetime.now().isoformat()` passed in explicitly. -/
def learn_from_optimization (st : PIState) (ts : String) (user_id provider text : String)
    (tokens_estimated tokens_actual : ℕ) (cost : ℚ) (optimization_level : String) : PIState :=
  if !st.learning_enabled then st
  else
    let uh := if (alookup st.user_history user_id).isSome then st.user_history
              else st.user_history ++ [(user_id, [])]
    let record : OptRecord :=
      { timestamp := ts, provider := provider, tokens_estimated := tokens_estimated,
        tokens_actual := tokens_actual, cost := cost,
        optimization_level := optimization_level, text_length := text.length }
    let uh := updateFirst (fun kv => kv.1 = user_id)
      (fun kv => (kv.1, kv.2 ++ [record])) uh
    let pc := if (alookup st.provider_calibration provider).isSome then st.provider_calibration
              else st.provider_calibration ++ [(provider, initCalib)]
    let pc := updateFirst (fun kv => kv.1 = provider)
      (fun kv =>
        let calib := kv.2
        -- `if tokens_estimated > 0:` EMA update with alpha = 0.3
        let calib :=
          if tokens_estimated > 0 then
            { calib with token_ratio :=
                0.3 * ((tokens_actual : ℚ) / (tokens_estimated : ℚ))
                  + (1 - 0.3) * calib.token_ratio }
          else calib
        let calib := { calib with sample_count := calib.sample_count + 1 }
        (kv.1,
          { calib with cost_per_token :=
              if tokens_actual > 0 then cost / (tokens_actual : ℚ) else 0 })) pc
    { st with user_history := uh, provider_calibration := pc }

/-- A recommendation entry with the `rank` field erased (used to state
that the affordability gate affects nothing but `rank`). -/
structure RecommendationBase where
  provider : String
  model : String
  estimated_tokens : ℤ
  cost_usd : ℚ
  tokens_per_dollar : ℚ
  cost_per_1k_tokens : ℚ
  optimization_potential : List (String × PotentialEntry)
  recommendation : String
  deriving DecidableEq, Repr

/-- Forget the `rank` field of a recommendation. -/
def eraseRank (r : Recommendation) : RecommendationBase :=
  { provider := r.provider, model := r.model, estimated_tokens := r.estimated_tokens,
    cost_usd := r.cost_usd, tokens_per_dollar := r.tokens_per_dollar,
    cost_per_1k_tokens := r.cost_per_1k_tokens,
    optimization_potential := r.optimization_potential,
    recommendation := r.recommendation }

/-- The budget limit `_calculate_rank` works with, defaults included. -/
def effectiveBudget (user_preferences : Option Prefs) : ℚ :=
  ((user_preferences.getD { priority := some "cost", budget_limit := some 1 }).budget_limit).getD 1

end ProviderIntelligence

namespace CostPredictor

/-- One entry of a DailyRecord's `requests` list. -/
structure ReqEntry where
  timestamp : String
  provider : String
  tokens : ℕ
  cost : ℚ
  level : String
  deriving DecidableEq, Repr

/-- A `{'cost': ..., 'tokens': ...}` sub-total. -/
structure SubTotal where
  cost : ℚ
  tokens : ℕ
  deriving DecidableEq, Repr

/-- One per-day aggregate record of a user's ledger. -/
structure DailyRecord where
  date : String
  total_cost : ℚ
  total_tokens : ℕ
  requests : List ReqEntry
  by_provider : List (String × SubTotal)
  by_level : List (String × SubTotal)
  deriving DecidableEq, Repr

/-- Mutable state of a `CostPredictionEngine` instance. -/
structure Engine where
  user_usage : List (String × List DailyRecord) := []
  learning_enabled : Bool := true
  deriving DecidableEq, Repr

/-- The freshly created record for `today`. -/
def freshRecord (today : String) : DailyRecord :=
  { date := today, total_cost := 0, total_tokens := 0,
    requests := [], by_provider := [], by_level := [] }

/-- Add `(cost, tokens)` to `d[key]`, creating `{'cost': 0, 'tokens': 0}`
first when the key is absent (as `record_usage` does for `by_provider`
and `by_level`). -/
def bumpAssoc (key : String) (cost : ℚ) (tokens : ℕ)
    (d : List (String × SubTotal)) : List (String × SubTotal) :=
  let d := if (alookup d key).isSome then d else d ++ [(key, ⟨0, 0⟩)]
  updateFirst (fun kv => kv.1 = key)
    (fun kv => (kv.1, ⟨kv.2.cost + cost, kv.2.tokens + tokens⟩)) d

/-- The in-place update `record_usage` performs on today's record. -/
def applyEvent (ts provider : String) (tokens_used : ℕ) (cost : ℚ)
    (optimization_level : String) (r : DailyRecord) : DailyRecord :=
  { r with
    total_cost := r.total_cost + cost,
    total_tokens := r.total_tokens + tokens_used,
    requests := r.requests ++
      [{ timestamp := ts, provider := provider, tokens := tokens_used,
         cost := cost, level := optimization_level }],
    by_provider := bumpAssoc provider cost tokens_used r.by_provider,
    by_level := bumpAssoc optimization_level cost tokens_used r.by_level }

/-- `CostPredictionEngine.record_usage`; `today` is
`datetime.now().date().isoformat()` and `ts` is `datetime.now().isoformat()`,
passed in explicitly. -/
def record_usage (eng : Engine) (today ts : String) (user_id provider : String)
    (tokens_used : ℕ) (cost : ℚ) (optimization_level : String) : Engine :=
  if !eng.learning_enabled then eng
  else
    let uu := if (alookup eng.user_usage user_id).isSome then eng.user_usage
              else eng.user_usage ++ [(user_id, [])]
    let uu := updateFirst (fun kv => kv.1 = user_id)
      (fun kv =>
        -- find or create today's record, then mutate it
        let recs := kv.2
        let recs := if (recs.find? (fun r => r.date = today)).isSome then recs
                    else recs ++ [freshRecord today]
        (kv.1, updateFirst (fun r => r.date = today)
          (applyEvent ts provider tokens_used cost optimization_level) recs)) uu
    { eng with user_usage := uu }

/-- Output of `predict_monthly_cost`. -/
structure CostPrediction where
  daily_average : ℚ
  current_period_cost : ℚ
  projected_period_end : ℚ
  days_remaining : ℤ
  confidence : ℚ
  trend : String
  deriving DecidableEq, Repr

/-- The all-zero prediction returned for an unknown or empty ledger. -/
def zeroPrediction : CostPrediction :=
  { daily_average := 0, current_period_cost := 0, projected_period_end := 0,
    days_remaining := 0, confidence := 0, trend := "stable" }

/-- `statistics.mean`: raises `StatisticsError` (modelled `none`) on an
empty list, otherwise the arithmetic mean. -/
def pymean (l : List ℚ) : Option ℚ :=
  if l.isEmpty then none else some (l.sum / (l.length : ℚ))

/-- `CostPredictionEngine.predict_monthly_cost`.  Ambient time is passed as
`today` (ISO date string), `month` and `day` (`now.month`, `now.day`).
Result `none` models an uncaught exception (`statistics.StatisticsError`
from `mean` of an empty slice). -/
def predict_monthly_cost (eng : Engine) (today : String) (month day : ℕ)
    (user_id : String) : Option CostPrediction :=
  match alookup eng.user_usage user_id with
  | none => some zeroPrediction
  | some usage =>
    if usage.isEmpty then some zeroPrediction
    else
      let daily_costs := usage.map (·.total_cost)
      let N := daily_costs.length
      let dc :=
        match pymean daily_costs with
        | none => ((0 : ℚ), (0 : ℚ))  -- the `if not daily_costs` branch
        | some m => (m, pyminQ 0.95 (0.5 + (N : ℚ) * 0.05))
      let daily_average := dc.1
      let confidence := dc.2
      let current_period_cost :=
        ((usage.filter (fun r => r.date ≤ today)).map (·.total_cost)).sum
      let days_in_month : ℤ :=
        if month = 2 then 28 else if month ∈ [4, 6, 9, 11] then 30 else 31
      let days_remaining : ℤ := days_in_month - (day : ℤ)
      let projected_period_end :=
        current_period_cost + daily_average * (days_remaining : ℚ)
      let trend? : Option String :=
        if N ≥ 3 then
          -- `mean(daily_costs[-3:])` and `mean(daily_costs[:-3])`; the
          -- latter raises StatisticsError when exactly 3 records exist
          match pymean (daily_costs.drop (N - 3)), pymean (daily_costs.take (N - 3)) with
          | some recent_avg, some older_avg =>
            some (if recent_avg > older_avg * 1.1 then "up"
                  else if recent_avg < older_avg * 0.9 then "down"
                  else "stable")
          | _, _ => none
        else some "stable"
      match trend? with
      | none => none
      | some trend =>
        some { daily_average := roundTo 2 daily_average,
               current_period_cost := roundTo 2 current_period_cost,
               projected_period_end := roundTo 2 projected_period_end,
               days_remaining := days_remaining,
               confidence := confidence,
               trend := trend }

/-- Output value of `detect_anomalies`. -/
structure Anomaly where
  date : String
  type : String
  normal_cost : ℚ
  actual_cost : ℚ
  severity : String
  message : String
  deriving DecidableEq, Repr

/-- The lookback window:
`[r for r in usage if len(usage) - usage.index(r) <= lookback_days]`. -/
def windowOf (usage : List DailyRecord) (lookback_days : ℕ) : List DailyRecord :=
  usage.filter (fun r => usage.length - usage.indexOf r ≤ lookback_days)

/-- Sample variance (square of `statistics.stdev`), defined for lists of
length ≥ 2 — the only lengths on which the source evaluates it. -/
def sampleVar (l : List ℚ) : ℚ :=
  let m := l.sum / (l.length : ℚ)
  (l.map (fun x => (x - m) ^ 2)).sum / ((l.length : ℚ) - 1)

/-- The spike test `cost > avg*2 or (stdev > 0 and cost > avg + 2*stdev)`
stated over exact rationals: `stdev = √v` with `v` the sample variance, so
`stdev > 0 ↔ v > 0` and, under `v > 0`,
`cost > avg + 2·√v ↔ (cost > avg ∧ (cost-avg)² > 4·v)` (squares of
positives compare like the positives).  `spikeCond_iff_sqrt` below proves
this equivalence against the `Real.sqrt` formulation. -/
def spikeCond (avg v cost : ℚ) : Prop :=
  cost > avg * 2 ∨ (0 < v ∧ avg < cost ∧ 4 * v < (cost - avg) ^ 2)

instance (avg v cost : ℚ) : Decidable (spikeCond avg v cost) := by
  unfold spikeCond; infer_instance

/-- The anomaly list built from the lookback window (the loop body of
`detect_anomalies`); `avg_cost` and `v` are the window mean and sample
variance. -/
def anomaliesOf (recent : List DailyRecord) : List Anomaly :=
  let daily_costs := recent.map (·.total_cost)
  let avg_cost := daily_costs.sum / (daily_costs.length : ℚ)
  let v := sampleVar daily_costs
  (recent.enum.map (fun ir =>
    let i := ir.1
    let record := ir.2
    let cost := record.total_cost
    (if spikeCond avg_cost v cost then
      [{ date := record.date, type := "SPIKE",
         normal_cost := roundTo 2 avg_cost, actual_cost := roundTo 2 cost,
         severity := if cost > avg_cost * 3 then "HIGH" else "MEDIUM",
         message := "Cost spike: $" ++ qfmt2 cost ++ " vs average $" ++ qfmt2 avg_cost }]
     else []) ++
    (if 1 ≤ i ∧ daily_costs.getD i 0 > avg_cost * 1.5
        ∧ daily_costs.getD (i - 1) 0 > avg_cost * 1.5 then
      [{ date := record.date, type := "UNUSUAL_PATTERN",
         normal_cost := roundTo 2 avg_cost, actual_cost := roundTo 2 cost,
         severity := "MEDIUM",
         message := "Consistent high usage pattern detected" }]
     else []))).flatten

/-- `CostPredictionEngine.detect_anomalies`.  Total: the `mean`/`stdev`
calls are reached only with a window of length ≥ 2, where they cannot
raise (the source's `try/except` around `stdev` is dead there). -/
def detect_anomalies (eng : Engine) (user_id : String) (lookback_days : ℕ) :
    List Anomaly :=
  match alookup eng.user_usage user_id with
  | none => []
  | some usage =>
    if usage.isEmpty then []
    else
      let recent := windowOf usage lookback_days
      if recent.length < 2 then []
      else anomaliesOf recent

/-- Output dict of `get_efficiency_score`.  `cost_per_token` and
`total_tokens_analyzed` are `none` when the corresponding key is absent
(the no-data result). -/
structure EffResult where
  score : ℤ
  message : String
  breakdown : List (String × ℤ)
  cost_per_token : Option ℚ := none
  total_tokens_analyzed : Option ℕ := none
  deriving DecidableEq, Repr

/-- `CostPredictionEngine._get_efficiency_message`. -/
def efficiencyMessage (score : ℤ) : String :=
  if score ≥ 90 then "Excellent cost efficiency! Keep it up."
  else if score ≥ 75 then "Good cost efficiency. Some minor optimizations possible."
  else if score ≥ 50 then "Average cost efficiency. Review recommendations."
  else "Low cost efficiency. Consider optimization strategies."

/-- The `{'score': 0, 'message': 'Not enough data', 'breakdown': {}}`
result for a user without usage data. -/
def noDataScore : EffResult :=
  { score := 0, message := "Not enough data", breakdown := [] }

/-- Accumulate `stats['cost']` per level over all records
(`level_usage` in `get_efficiency_score`). -/
def levelCostUsage (usage : List DailyRecord) : List (String × ℚ) :=
  usage.foldl (fun lu r =>
    r.by_level.foldl (fun lu kv =>
      let lu := if (alookup lu kv.1).isSome then lu else lu ++ [(kv.1, 0)]
      updateFirst (fun e => e.1 = kv.1) (fun e => (e.1, e.2 + kv.2.cost)) lu) lu) []

/-- `CostPredictionEngine.get_efficiency_score`.  Result `none` models the
uncaught `UnboundLocalError`: when `total_tokens == 0` the local
`cost_per_token` is never assigned, yet the returned dict reads it. -/
def get_efficiency_score (eng : Engine) (user_id : String) : Option EffResult :=
  match alookup eng.user_usage user_id with
  | none => some noDataScore
  | some usage =>
    if usage.isEmpty then some noDataScore
    else
      let total_cost : ℚ := (usage.map (·.total_cost)).sum
      let total_tokens : ℕ := (usage.map (·.total_tokens)).sum
      -- `cost_per_token` is bound only in the `total_tokens != 0` branch
      let cost_per_token? : Option ℚ :=
        if total_tokens = 0 then none
        else some (total_cost / (total_tokens : ℚ))
      let cost_per_token_score : ℚ :=
        match cost_per_token? with
        | none => 50
        | some cost_per_token =>
          let optimal : ℚ := 0.00003
          if cost_per_token ≤ optimal * 1.5 then 100
          else if cost_per_token ≤ optimal * 2 then 80
          else pymaxQ 0 (100 - (cost_per_token / optimal) * 10)
      let level_usage := levelCostUsage usage
      let optimization_score : ℤ :=
        match alookup level_usage "aggressive" with
        | some agg =>
          let aggressive_pct := if total_cost > 0 then agg / total_cost else 0
          pyInt (aggressive_pct * 100)
        | none => 50
      let trend_score : ℤ :=
        if usage.length ≥ 7 then
          let recent := (((usage.drop (usage.length - 7)).map (·.total_cost)).sum) / 7
          let older :=
            if usage.length ≥ 14 then
              ((((usage.drop (usage.length - 14)).take 7).map (·.total_cost)).sum) / 7
            else recent
          if recent < older * 0.9 then 100
          else if recent < older * 1.1 then 75
          else 50
        else 75
      let overall_score : ℤ :=
        pyInt (cost_per_token_score * 0.4 + (optimization_score : ℚ) * 0.3
          + (trend_score : ℚ) * 0.3)
      match cost_per_token? with
      | none => none  -- UnboundLocalError at the return statement
      | some cost_per_token =>
        some { score := pyminZ 100 overall_score,
               message := efficiencyMessage overall_score,
               breakdown :=
                 [("cost_per_token", pyInt cost_per_token_score),
                  ("optimization_usage", optimization_score),
                  ("trend", trend_score)],
               cost_per_token := some cost_per_token,
               total_tokens_analyzed := some total_tokens }

/-- One recommendation dict of `recommend_cost_reduction` (the constructor
is the `type` field). -/
inductive CostRecommendation where
  | diversify (provider : String) (current_percentage : ℚ) (message : String)
      (potential_savings : ℚ)
  | switchLevel (current_level recommended_level : String) (current_percentage : ℚ)
      (message : String) (potential_savings : ℚ)
  | increaseOpt (current_level recommended_level : String) (message : String)
      (potential_savings : ℚ)
  | budgetAlert (daily_average monthly_projection : ℚ) (message : String)
      (potential_savings : ℚ)
  deriving DecidableEq, Repr

/-- Python `max(items, key=...)` over a nonempty list: the first element
attaining the maximum value. -/
def maxBySnd (l : List (String × ℚ)) : String × ℚ :=
  match l with
  | [] => ("", 0)
  | x :: xs => xs.foldl (fun best y => if y.2 > best.2 then y else best) x

/-- Per-level cost/token stats (`level_stats` in
`recommend_cost_reduction`). -/
def levelStats (usage : List DailyRecord) : List (String × SubTotal) :=
  usage.foldl (fun ls r =>
    r.by_level.foldl (fun ls kv =>
      bumpAssoc kv.1 kv.2.cost kv.2.tokens ls) ls) []

/-- `CostPredictionEngine.recommend_cost_reduction`.  Result `none` models
the uncaught `ZeroDivisionError` in the provider-diversity block when the
supplied `by_provider` costs sum to 0. -/
def recommend_cost_reduction (eng : Engine) (user_id : String)
    (by_provider : Option (List (String × SubTotal))) :
    Option (List CostRecommendation) :=
  match alookup eng.user_usage user_id with
  | none => some []
  | some usage =>
    if usage.isEmpty then some []
    else
      -- `if by_provider:` — skipped for None and for an empty dict
      let divRecs? : Option (List CostRecommendation) :=
        match by_provider with
        | none => some []
        | some bp =>
          if bp.isEmpty then some []
          else
            let provider_costs := bp.map (fun kv => (kv.1, kv.2.cost))
            let most_expensive := maxBySnd provider_costs
            let total_cost := (provider_costs.map (·.2)).sum
            if total_cost = 0 then none  -- ZeroDivisionError
            else if most_expensive.2 / total_cost > 0.5 then
              some [.diversify most_expensive.1
                (roundTo 1 ((most_expensive.2 / total_cost) * 100))
                ("Reduce " ++ most_expensive.1 ++ " usage to under 50% of total")
                (roundTo 2 (most_expensive.2 * 0.1))]
            else some []
      match divRecs? with
      | none => none
      | some recs₀ =>
        let total_cost := (usage.map (·.total_cost)).sum
        let level_stats := levelStats usage
        let aggRecs : List CostRecommendation :=
          match alookup level_stats "aggressive" with
          | some st =>
            let aggressive_pct :=
              if total_cost > 0 then (st.cost / total_cost) * 100 else 0
            if aggressive_pct > 30 then
              [.switchLevel "aggressive" "balanced" (roundTo 1 aggressive_pct)
                "Switch some aggressive optimizations to balanced (28% vs 42% savings)"
                (roundTo 2 (total_cost * 0.05))]
            else []
          | none => []
        let incRecs : List CostRecommendation :=
          if (alookup level_stats "balanced").isSome
              ∧ (alookup level_stats "aggressive").isSome then
            let st := ((alookup level_stats "balanced").map (·.cost)).getD 0
            let balanced_pct := if total_cost > 0 then (st / total_cost) * 100 else 0
            if balanced_pct > 70 then
              [.increaseOpt "balanced" "aggressive"
                "You\x27re being conservative. Try aggressive mode to save more."
                (roundTo 2 (total_cost * 0.14))]
            else []
          else []
        let budRecs : List CostRecommendation :=
          if usage.length ≥ 7 then
            let daily_costs := (usage.drop (usage.length - 7)).map (·.total_cost)
            let daily_avg := daily_costs.sum / (daily_costs.length : ℚ)
            if daily_avg > 10 then
              [.budgetAlert (roundTo 2 daily_avg) (roundTo 2 (daily_avg * 30))
                ("Your daily spending is $" ++ qfmt2 daily_avg
                  ++ ". Projected monthly: $" ++ qfmt2 (daily_avg * 30))
                (roundTo 2 (daily_avg * 30 * 0.1))]
            else []
          else []
        some (recs₀ ++ aggRecs ++ incRecs ++ budRecs)

/-- Mean of the window's daily costs (what `detect_anomalies` calls
`avg_cost`). -/
def windowAvg (recent : List DailyRecord) : ℚ :=
  ((recent.map (·.total_cost)).sum) / ((recent.map (·.total_cost)).length : ℚ)

/-- Sample variance of the window's daily costs: the square of the
`stdev` that `detect_anomalies` computes. -/
def windowVar (recent : List DailyRecord) : ℚ :=
  sampleVar (recent.map (·.total_cost))

/-- One `record_usage` call's payload. -/
structure Ev where
  provider : String
  tokens : ℕ
  cost : ℚ
  level : String
  deriving DecidableEq, Repr

/-- Fold a sequence of same-user same-day `record_usage` calls over the
freshly initialized engine. -/
def applySeq (today ts user_id : String) (evs : List Ev) : Engine :=
  evs.foldl (fun eng ev =>
    record_usage eng today ts user_id ev.provider ev.tokens ev.cost ev.level) {}

/-- The DailyRecord invariant of the spec: totals equal the sum of the
contained events, and the `by_provider` / `by_level` sub-totals each sum
to the same totals. -/
def RecInv (r : DailyRecord) : Prop :=
  r.total_cost = (r.requests.map (·.cost)).sum
  ∧ r.total_tokens = (r.requests.map (·.tokens)).sum
  ∧ (r.by_provider.map (·.2.cost)).sum = r.total_cost
  ∧ (r.by_provider.map (·.2.tokens)).sum = r.total_tokens
  ∧ (r.by_level.map (·.2.cost)).sum = r.total_cost
  ∧ (r.by_level.map (·.2.tokens)).sum = r.total_tokens

instance (r : DailyRecord) : Decidable (RecInv r) := by
  unfold RecInv; infer_instance

/-- Every DailyRecord of every user's ledger satisfies `RecInv`. -/
def EngInv (eng : Engine) : Prop :=
  ∀ kv ∈ eng.user_usage, ∀ r ∈ kv.2, RecInv r

instance (eng : Engine) : Decidable (EngInv eng) := by
  unfold EngInv; infer_instance

/-- A read-only ledger fixture: one record per cost, dated consecutively,
100 tokens each. -/
def ledgerOfCosts (costs : List ℚ) : List DailyRecord :=
  costs.enum.map fun ic =>
    { date := "2026-10-" ++ pad2 (ic.1 + 1), total_cost := ic.2, total_tokens := 100,
      requests := [], by_provider := [],
      by_level := [("balanced", ⟨ic.2, 100⟩)] }

/-- An engine whose user `"u"` has the given daily costs. -/
def engOfCosts (costs : List ℚ) : Engine :=
  { user_usage := [("u", ledgerOfCosts costs)] }

/-- An engine whose user `"u"` has one record with cost 5 but zero
tokens. -/
def zeroTokenEngine : Engine :=
  { user_usage := [("u",
      [{ date := "2026-10-01", total_cost := 5, total_tokens := 0,
         requests := [], by_provider := [], by_level := [] }])] }

end CostPredictor

open ProviderIntelligence CostPredictor

/-! ### Helper lemmas about the dict / loop combinators -/

theorem pyminQ_eq_min (a b : ℚ) : pyminQ a b = min a b := by
  rw [pyminQ, min_def]

theorem pyminZ_eq_min (a b : ℤ) : pyminZ a b = min a b := by
  rw [pyminZ, min_def]

theorem pymaxQ_eq_max (a b : ℚ) : pymaxQ a b = max a b := by
  rw [pymaxQ, max_def]
  rcases le_or_lt b a with h | h
  · rcases lt_or_eq_of_le h with h' | h'
    · rw [if_pos h, if_neg (not_le.mpr h')]
    · rw [if_pos h, h']
      simp
  · rw [if_neg (not_le.mpr h), if_pos (le_of_lt h)]

theorem alookup_append_of_none {β : Type} {l : List (String × β)} {k : String}
    (l' : List (String × β)) (h : alookup l k = none) :
    alookup (l ++ l') k = alookup l' k := by
  induction l with
  | nil => simp
  | cons kv rest ih =>
    obtain ⟨k', v⟩ := kv
    by_cases hk : k' = k
    · rw [alookup, if_pos hk] at h
      exact absurd h (by simp)
    · rw [alookup, if_neg hk] at h
      rw [List.cons_append, alookup, if_neg hk]
      exact ih h

theorem alookup_updateFirst_key {β : Type} (k : String)
    (f : String × β → String × β) (hf : ∀ kv, (f kv).1 = kv.1)
    (l : List (String × β)) :
    alookup (updateFirst (fun kv => kv.1 = k) f l) k
      = (alookup l k).map (fun v => (f (k, v)).2) := by
  induction l with
  | nil => simp [alookup, updateFirst]
  | cons kv rest ih =>
    obtain ⟨k', v⟩ := kv
    by_cases hk : k' = k
    · subst hk
      have h1 : (f (k', v)).1 = k' := hf (k', v)
      simp [updateFirst, alookup, h1]
    · have h1 : (decide ((k', v).1 = k)) = false := by simp [hk]
      simp only [updateFirst, h1, Bool.false_eq_true, if_false]
      rw [alookup, if_neg hk, alookup, if_neg hk]
      exact ih

theorem mem_updateFirst {α : Type} {p : α → Bool} {f : α → α} {l : List α} {x : α}
    (hx : x ∈ updateFirst p f l) : x ∈ l ∨ ∃ y ∈ l, p y = true ∧ x = f y := by
  induction l with
  | nil => simp [updateFirst] at hx
  | cons a rest ih =>
    by_cases hp : p a
    · simp [updateFirst, hp] at hx
      rcases hx with hx | hx
      · exact Or.inr ⟨a, by simp, hp, hx⟩
      · exact Or.inl (List.mem_cons_of_mem _ hx)
    · simp [updateFirst, hp] at hx
      rcases hx with hx | hx
      · exact Or.inl (by simp [hx])
      · rcases ih hx with h | ⟨y, hy, hpy, hxy⟩
        · exact Or.inl (List.mem_cons_of_mem _ h)
        · exact Or.inr ⟨y, List.mem_cons_of_mem _ hy, hpy, hxy⟩

theorem mem_sInsert {α : Type} {lt : α → α → Bool} {x a : α} {l : List α} :
    a ∈ sInsert lt x l ↔ a = x ∨ a ∈ l := by
  induction l with
  | nil => simp [sInsert]
  | cons b rest ih =>
    by_cases h : lt x b
    · simp [sInsert, h]
    · simp [sInsert, h, ih]
      tauto

theorem mem_stableSortBy {α : Type} {lt : α → α → Bool} {l : List α} {a : α} :
    a ∈ stableSortBy lt l ↔ a ∈ l := by
  suffices h : ∀ (l acc : List α), a ∈ l.foldl (fun acc x => sInsert lt x acc) acc
      ↔ a ∈ acc ∨ a ∈ l by
    simpa [stableSortBy] using h l []
  intro l
  induction l with
  | nil => simp
  | cons x xs ih =>
    intro acc
    rw [List.foldl_cons, ih, mem_sInsert]
    simp
    tauto

theorem map_sInsert {α β : Type} (g : α → β) (lt : α → α → Bool) (lt' : β → β → Bool)
    (hg : ∀ a b, lt a b = lt' (g a) (g b)) (x : α) (l : List α) :
    (sInsert lt x l).map g = sInsert lt' (g x) (l.map g) := by
  induction l with
  | nil => simp [sInsert]
  | cons b rest ih =>
    by_cases h : lt x b
    · simp [sInsert, h, ← hg]
    · simp [sInsert, h, ← hg, ih]

theorem map_stableSortBy {α β : Type} (g : α → β) (lt : α → α → Bool)
    (lt' : β → β → Bool) (hg : ∀ a b, lt a b = lt' (g a) (g b)) (l : List α) :
    (stableSortBy lt l).map g = stableSortBy lt' (l.map g) := by
  suffices h : ∀ (l acc : List α),
      (l.foldl (fun acc x => sInsert lt x acc) acc).map g
        = (l.map g).foldl (fun acc x => sInsert lt' x acc) (acc.map g) by
    simpa [stableSortBy] using h l []
  intro l
  induction l with
  | nil => simp
  | cons x xs ih =>
    intro acc
    rw [List.foldl_cons, ih, map_sInsert g lt lt' hg, List.map_cons, List.foldl_cons]

theorem mapExcept_ok_mem {α β ε : Type} {f : α → Except ε β} {l : List α}
    {out : List β} (h : mapExcept f l = .ok out) :
    ∀ b ∈ out, ∃ a ∈ l, f a = .ok b := by
  induction l generalizing out with
  | nil =>
    simp [mapExcept] at h
    simp [h]
  | cons x xs ih =>
    intro b hb
    rcases hfx : f x with e | y
    · simp [mapExcept, hfx, Bind.bind, Except.bind] at h
    · rcases hrest : mapExcept f xs with e | ys
      · simp [mapExcept, hfx, hrest, Bind.bind, Except.bind, Functor.map, Except.map, Pure.pure, Except.pure] at h
      · simp [mapExcept, hfx, hrest, Bind.bind, Except.bind, Functor.map, Except.map, Pure.pure, Except.pure] at h
        rw [← h] at hb
        rcases List.mem_cons.mp hb with hb | hb
        · exact ⟨x, by simp, by rw [hfx, hb]⟩
        · rcases ih hrest b hb with ⟨a, ha, hfa⟩
          exact ⟨a, List.mem_cons_of_mem _ ha, hfa⟩

theorem mapExcept_ok_map_eq {α β γ ε : Type} {f f' : α → Except ε β} {g : β → γ}
    {l : List α} {out out' : List β}
    (h : mapExcept f l = .ok out) (h' : mapExcept f' l = .ok out')
    (hg : ∀ a ∈ l, ∀ b b', f a = .ok b → f' a = .ok b' → g b = g b') :
    out.map g = out'.map g := by
  induction l generalizing out out' with
  | nil =>
    simp [mapExcept] at h h'
    simp [h, h']
  | cons x xs ih =>
    rcases hfx : f x with e | y
    · simp [mapExcept, hfx, Bind.bind, Except.bind] at h
    · rcases hfx' : f' x with e | y'
      · simp [mapExcept, hfx', Bind.bind, Except.bind] at h'
      · rcases hrest : mapExcept f xs with e | ys
        · simp [mapExcept, hfx, hrest, Bind.bind, Except.bind, Functor.map, Except.map, Pure.pure, Except.pure] at h
        · rcases hrest' : mapExcept f' xs with e | ys'
          · simp [mapExcept, hfx', hrest', Bind.bind, Except.bind, Functor.map, Except.map, Pure.pure, Except.pure] at h'
          · simp [mapExcept, hfx, hrest, Bind.bind, Except.bind, Functor.map, Except.map, Pure.pure, Except.pure] at h
            simp [mapExcept, hfx', hrest', Bind.bind, Except.bind, Functor.map, Except.map, Pure.pure, Except.pure] at h'
            rw [← h, ← h']
            simp only [List.map_cons]
            rw [hg x (by simp) y y' hfx hfx',
              ih hrest hrest' (fun a ha => hg a (List.mem_cons_of_mem _ ha))]

/-! ### Claim theorems -/

/-- C1: the spec's concrete trend case holds — daily costs
`[5,5,5,5,5,15,15,15]` classify as `trend = "up"` — but the claim's
"returns normally for every record count, including exactly 3 records"
fails on the code: with exactly 3 records `daily_costs[:-3]` is empty and
`statistics.mean` raises `StatisticsError` (modelled as `none`), so
`predict_monthly_cost` does not return. -/
theorem predict_trend_up_but_crash_at_exactly_three_records :
    (predict_monthly_cost (engOfCosts [5, 5, 5, 5, 5, 15, 15, 15])
        "2026-10-12" 10 12 "u").map (·.trend) = some "up"
    ∧ predict_monthly_cost (engOfCosts [5, 5, 5]) "2026-10-12" 10 12 "u" = none := by
  constructor
  · with_unfolding_all decide
  · with_unfolding_all decide

/-- C3: for a user with one DailyRecord of cost 5 and zero total tokens,
`get_efficiency_score` does not return normally: the `total_tokens == 0`
branch sets the cost sub-score to 50 but never assigns the local
`cost_per_token`, which the returned dict then reads — an uncaught
`UnboundLocalError`, modelled as `none`. -/
theorem get_efficiency_score_zero_tokens_raises :
    get_efficiency_score zeroTokenEngine "u" = none := by
  with_unfolding_all decide

/-- C8: the confidence formula `min(0.95, 0.5 + 0.05·N)` is visible at
N = 1 (0.55) and N = 9 (0.95), but the claim's "for every non-empty
ledger" fails on the code: at exactly N = 3 records `predict_monthly_cost`
raises (mean of the empty `daily_costs[:-3]`) and returns no confidence at
all, where the formula would give 0.65. -/
theorem confidence_formula_but_no_return_at_three_records :
    (predict_monthly_cost (engOfCosts [7]) "2026-10-12" 10 12 "u").map
      (·.confidence) = some 0.55
    ∧ (predict_monthly_cost (engOfCosts [1, 2, 3, 4, 5, 6, 7, 8, 9])
        "2026-10-12" 10 12 "u").map (·.confidence) = some 0.95
    ∧ predict_monthly_cost (engOfCosts [1, 2, 3]) "2026-10-12" 10 12 "u" = none := by
  refine ⟨?_, ?_, ?_⟩
  · with_unfolding_all decide
  · with_unfolding_all decide
  · with_unfolding_all decide

theorem mem_ite_singleton {α : Type} {c : Prop} [Decidable c] {x a : α} :
    (a ∈ if c then [x] else []) ↔ c ∧ a = x := by
  split <;> simp_all

/-- Squaring away the square root in the spike test: for positive
variance `V`, `C > A + 2·√V` iff `C > A` and `(C−A)² > 4·V`. -/
theorem sq_sqrt_ineq_aux (A V C : ℝ) (hvpos : 0 < V) :
    A + 2 * Real.sqrt V < C ↔ (A < C ∧ 4 * V < (C - A) ^ 2) := by
  have hs : 0 < Real.sqrt V := Real.sqrt_pos.mpr hvpos
  have hsq : (2 * Real.sqrt V) ^ 2 = 4 * V := by
    rw [mul_pow, Real.sq_sqrt (le_of_lt hvpos)]
    ring
  constructor
  · intro h
    have hac : A < C := lt_trans (by linarith) h
    refine ⟨hac, ?_⟩
    have h2 : 2 * Real.sqrt V < C - A := by linarith
    have h3 := pow_lt_pow_left₀ h2 (by positivity) (two_ne_zero)
    rw [hsq] at h3
    exact h3
  · rintro ⟨hac, hsqlt⟩
    by_contra hcon
    push_neg at hcon
    have h2 : C - A ≤ 2 * Real.sqrt V := by linarith
    have h3 := pow_le_pow_left₀ (by linarith) h2 2
    rw [hsq] at h3
    linarith

/-- The decidable rational `spikeCond` is exactly the source's condition
`cost > avg*2 or (stdev > 0 and cost > avg + 2*stdev)` with
`stdev = √(sample variance)` read over the reals. -/
theorem spikeCond_iff_sqrt (avg v cost : ℚ) :
    spikeCond avg v cost ↔
      ((avg : ℝ) * 2 < (cost : ℝ)
        ∨ (0 < Real.sqrt (v : ℝ)
           ∧ (avg : ℝ) + 2 * Real.sqrt (v : ℝ) < (cost : ℝ))) := by
  unfold spikeCond
  constructor
  · rintro (h | ⟨hv0, hac, hsq⟩)
    · exact Or.inl (by exact_mod_cast h)
    · refine Or.inr ⟨Real.sqrt_pos.mpr (by exact_mod_cast hv0), ?_⟩
      rw [sq_sqrt_ineq_aux _ _ _ (by exact_mod_cast hv0)]
      exact ⟨by exact_mod_cast hac, by exact_mod_cast hsq⟩
  · rintro (h | ⟨hs, hlt⟩)
    · exact Or.inl (by exact_mod_cast h)
    · have hv0 : (0 : ℝ) < v := Real.sqrt_pos.mp hs
      rw [sq_sqrt_ineq_aux _ _ _ hv0] at hlt
      refine Or.inr ⟨by exact_mod_cast hv0, by exact_mod_cast hlt.1, ?_⟩
      exact_mod_cast hlt.2

/-- The sample variance is non-negative, so reading `stdev` as its real
square root is well-defined. -/
theorem sampleVar_nonneg (l : List ℚ) (h : 2 ≤ l.length) : 0 ≤ sampleVar l := by
  unfold sampleVar
  apply div_nonneg
  · apply List.sum_nonneg
    intro x hx
    rcases List.mem_map.mp hx with ⟨y, _, hy⟩
    rw [← hy]
    positivity
  · have h2 : (2 : ℚ) ≤ (l.length : ℚ) := by exact_mod_cast h
    linarith

/-- Membership characterization of the SPIKE anomalies produced from a
window with pairwise-distinct dates (an invariant of every ledger built by
`record_usage`, which keys records by date). -/
theorem spike_anomaliesOf_char (recent : List DailyRecord)
    (hd : (recent.map (·.date)).Nodup) (r : DailyRecord) (hr : r ∈ recent) :
    ((∃ a ∈ anomaliesOf recent, a.type = "SPIKE" ∧ a.date = r.date) ↔
      spikeCond (windowAvg recent) (windowVar recent) r.total_cost)
    ∧ (∀ a ∈ anomaliesOf recent, a.type = "SPIKE" → a.date = r.date →
        (a.severity = "HIGH" ↔ r.total_cost > windowAvg recent * 3)) := by
  have hinj := List.inj_on_of_nodup_map hd
  have hmem : ∀ a : Anomaly, a ∈ anomaliesOf recent ↔
      ∃ ir ∈ recent.enum,
        (spikeCond (windowAvg recent) (windowVar recent) ir.2.total_cost ∧
          a = { date := ir.2.date, type := "SPIKE",
                normal_cost := roundTo 2 (windowAvg recent),
                actual_cost := roundTo 2 ir.2.total_cost,
                severity := if ir.2.total_cost > windowAvg recent * 3 then "HIGH" else "MEDIUM",
                message := "Cost spike: $" ++ qfmt2 ir.2.total_cost ++ " vs average $"
                  ++ qfmt2 (windowAvg recent) })
        ∨ ((1 ≤ ir.1 ∧ (recent.map (·.total_cost)).getD ir.1 0 > windowAvg recent * 1.5
             ∧ (recent.map (·.total_cost)).getD (ir.1 - 1) 0 > windowAvg recent * 1.5) ∧
          a = { date := ir.2.date, type := "UNUSUAL_PATTERN",
                normal_cost := roundTo 2 (windowAvg recent),
                actual_cost := roundTo 2 ir.2.total_cost,
                severity := "MEDIUM",
                message := "Consistent high usage pattern detected" }) := by
    intro a
    simp only [anomaliesOf, windowAvg, windowVar, List.mem_flatten, List.mem_map]
    constructor
    · rintro ⟨l', ⟨ir, hir, rfl⟩, hal⟩
      rcases List.mem_append.mp hal with h | h
      · exact ⟨ir, hir, Or.inl ⟨(mem_ite_singleton.mp h).1, (mem_ite_singleton.mp h).2⟩⟩
      · exact ⟨ir, hir, Or.inr ⟨(mem_ite_singleton.mp h).1, (mem_ite_singleton.mp h).2⟩⟩
    · rintro ⟨ir, hir, h | h⟩
      · exact ⟨_, ⟨ir, hir, rfl⟩, List.mem_append.mpr (Or.inl (mem_ite_singleton.mpr ⟨h.1, h.2⟩))⟩
      · exact ⟨_, ⟨ir, hir, rfl⟩, List.mem_append.mpr (Or.inr (mem_ite_singleton.mpr ⟨h.1, h.2⟩))⟩
  constructor
  · constructor
    · rintro ⟨a, ha, htype, hdate⟩
      rcases (hmem a).mp ha with ⟨ir, hir, h | h⟩
      · obtain ⟨hcond, rfl⟩ := h
        have hir2 : (ir.1, ir.2) ∈ recent.enum := by simpa using hir
        have hmemrec : ir.2 ∈ recent :=
          List.getElem?_mem (List.mk_mem_enum_iff_getElem?.mp hir2)
        have heq : ir.2 = r := hinj hmemrec hr (by simpa using hdate)
        rw [← heq]
        exact hcond
      · obtain ⟨_, rfl⟩ := h
        simp at htype
    · intro hcond
      rcases List.mem_iff_getElem?.mp hr with ⟨i, hi⟩
      exact ⟨_, (hmem _).mpr ⟨(i, r), List.mk_mem_enum_iff_getElem?.mpr hi,
        Or.inl ⟨hcond, rfl⟩⟩, rfl, rfl⟩
  · intro a ha htype hdate
    rcases (hmem a).mp ha with ⟨ir, hir, h | h⟩
    · obtain ⟨hcond, rfl⟩ := h
      have hir2 : (ir.1, ir.2) ∈ recent.enum := by simpa using hir
      have hmemrec : ir.2 ∈ recent :=
        List.getElem?_mem (List.mk_mem_enum_iff_getElem?.mp hir2)
      have heq : ir.2 = r := hinj hmemrec hr (by simpa using hdate)
      rw [← heq]
      by_cases hc : ir.2.total_cost > windowAvg recent * 3
      · simp [hc]
      · simp [hc]
    · obtain ⟨_, rfl⟩ := h
      simp at htype

/-- C4: in any lookback window with at least 2 records (and the ledger
invariant of pairwise-distinct dates), a record emits a SPIKE anomaly
exactly when its cost exceeds twice the window average, or the window
standard deviation (the real square root of the sample variance) is
positive and the cost exceeds the average plus two standard deviations;
its severity is HIGH exactly when the cost exceeds three times the
average, else MEDIUM.  Concretely, daily costs `[5,5,5,5,30]` produce
exactly one SPIKE, on the last day, with severity MEDIUM. -/
theorem spike_detection_characterization :
    (∀ (eng : Engine) (user : String) (lookback : ℕ) (usage : List DailyRecord),
      alookup eng.user_usage user = some usage → usage ≠ [] →
      2 ≤ (windowOf usage lookback).length →
      ((windowOf usage lookback).map (·.date)).Nodup →
      ∀ r ∈ windowOf usage lookback,
        ((∃ a ∈ detect_anomalies eng user lookback, a.type = "SPIKE" ∧ a.date = r.date)
          ↔ ((windowAvg (windowOf usage lookback) : ℝ) * 2 < (r.total_cost : ℝ)
            ∨ (0 < Real.sqrt (windowVar (windowOf usage lookback) : ℝ)
               ∧ (windowAvg (windowOf usage lookback) : ℝ)
                   + 2 * Real.sqrt (windowVar (windowOf usage lookback) : ℝ)
                   < (r.total_cost : ℝ))))
        ∧ (∀ a ∈ detect_anomalies eng user lookback, a.type = "SPIKE" → a.date = r.date →
            (a.severity = "HIGH" ↔ r.total_cost > windowAvg (windowOf usage lookback) * 3)))
    ∧ detect_anomalies (engOfCosts [5, 5, 5, 5, 30]) "u" 7 =
        [{ date := "2026-10-05", type := "SPIKE", normal_cost := 10, actual_cost := 30,
           severity := "MEDIUM", message := "Cost spike: $30.00 vs average $10.00" }] := by
  constructor
  · intro eng user lookback usage hlk hne hlen hd r hr
    have hdet : detect_anomalies eng user lookback = anomaliesOf (windowOf usage lookback) := by
      unfold detect_anomalies
      rw [hlk]
      simp only [List.isEmpty_iff, hne, if_false]
      rw [if_neg (Nat.not_lt.mpr hlen)]
    have hchar := spike_anomaliesOf_char (windowOf usage lookback) hd r hr
    rw [hdet]
    refine ⟨?_, hchar.2⟩
    rw [hchar.1]
    exact spikeCond_iff_sqrt _ _ _
  · with_unfolding_all decide

set_option maxRecDepth 10000 in
/-- Witness for C4's theorem: the five-day ledger `[5,5,5,5,30]` with the
default 7-day lookback. -/
theorem spike_detection_characterization_witness :
    ∀ r ∈ windowOf (ledgerOfCosts [5, 5, 5, 5, 30]) 7,
      ((∃ a ∈ detect_anomalies (engOfCosts [5, 5, 5, 5, 30]) "u" 7,
          a.type = "SPIKE" ∧ a.date = r.date)
        ↔ ((windowAvg (windowOf (ledgerOfCosts [5, 5, 5, 5, 30]) 7) : ℝ) * 2 < (r.total_cost : ℝ)
          ∨ (0 < Real.sqrt (windowVar (windowOf (ledgerOfCosts [5, 5, 5, 5, 30]) 7) : ℝ)
             ∧ (windowAvg (windowOf (ledgerOfCosts [5, 5, 5, 5, 30]) 7) : ℝ)
                 + 2 * Real.sqrt (windowVar (windowOf (ledgerOfCosts [5, 5, 5, 5, 30]) 7) : ℝ)
                 < (r.total_cost : ℝ))))
      ∧ (∀ a ∈ detect_anomalies (engOfCosts [5, 5, 5, 5, 30]) "u" 7,
          a.type = "SPIKE" → a.date = r.date →
          (a.severity = "HIGH" ↔
            r.total_cost > windowAvg (windowOf (ledgerOfCosts [5, 5, 5, 5, 30]) 7) * 3)) :=
  spike_detection_characterization.1 (engOfCosts [5, 5, 5, 5, 30]) "u" 7
    (ledgerOfCosts [5, 5, 5, 5, 30])
    (by with_unfolding_all rfl) (by with_unfolding_all decide)
    (by with_unfolding_all decide) (by with_unfolding_all decide)

/-- C2: refuted as stated — `estimate_provider_tokens` is not guarded on
every division: for any text shorter than 4 characters (so the estimated
token count is 0) the `cost_per_1k_tokens` division by the total token
count raises `ZeroDivisionError` (only `tokens_per_dollar` is guarded). -/
theorem estimate_short_text_zero_division (text : String) (h : text.length < 4) :
    estimate_provider_tokens [] text "openai" none = .error .zeroDivisionError := by
  have h4 : text.length / 4 = 0 := Nat.div_eq_of_lt h
  unfold estimate_provider_tokens
  rw [h4]
  with_unfolding_all rfl

/-- Witness for C2's theorem: the empty text on openai. -/
theorem estimate_short_text_zero_division_witness :
    estimate_provider_tokens [] "" "openai" none = .error .zeroDivisionError :=
  estimate_short_text_zero_division "" (by decide)

/-- C5: `learn_from_optimization` with learning enabled and
`tokens_estimated > 0` updates the provider's calibration: the new
`token_ratio` is `0.3·(tokens_actual/tokens_estimated) + 0.7·old` (old is
1.0 when the provider had no calibration record, so a first call with
observed ratio r yields `0.3·r + 0.7·1.0` exactly), and `cost_per_token`
becomes `cost/tokens_actual` (0 when `tokens_actual` is 0). -/
theorem learn_from_optimization_ema_update (st : PIState)
    (ts user_id provider text : String) (tokens_estimated tokens_actual : ℕ)
    (cost : ℚ) (lvl : String)
    (hl : st.learning_enabled = true) (he : 0 < tokens_estimated) :
    ∃ c', alookup (learn_from_optimization st ts user_id provider text
          tokens_estimated tokens_actual cost lvl).provider_calibration provider = some c'
      ∧ c'.token_ratio = 0.3 * ((tokens_actual : ℚ) / (tokens_estimated : ℚ))
          + 0.7 * ((alookup st.provider_calibration provider).getD initCalib).token_ratio
      ∧ c'.cost_per_token = (if 0 < tokens_actual then cost / (tokens_actual : ℚ) else 0)
      ∧ (alookup st.provider_calibration provider = none →
          c'.token_ratio = 0.3 * ((tokens_actual : ℚ) / (tokens_estimated : ℚ)) + 0.7 * 1) := by
  simp only [learn_from_optimization, hl, Bool.not_true, Bool.false_eq_true, if_false]
  rcases hcal : alookup st.provider_calibration provider with _ | c0
  · simp only [hcal, Option.isSome_none, Bool.false_eq_true, if_false]
    rw [alookup_updateFirst_key provider]
    case hf => intro kv; rfl
    rw [alookup_append_of_none _ hcal]
    simp only [alookup, if_pos rfl, Option.map_some, hcal, Option.getD_none]
    refine ⟨_, rfl, ?_, ?_, ?_⟩
    · norm_num [he, initCalib]
    · norm_num [he, initCalib]
    · intro hh
      norm_num [he, initCalib]
  · simp only [hcal, Option.isSome_some, if_true]
    rw [alookup_updateFirst_key provider]
    case hf => intro kv; rfl
    rw [hcal]
    simp only [Option.map_some, hcal, Option.getD_some]
    refine ⟨_, rfl, ?_, ?_, ?_⟩
    · norm_num [he]
    · norm_num [he]
    · intro hh
      cases hh

/-- Witness for C5's theorem: a first call for openai with 150 actual vs
100 estimated tokens. -/
theorem learn_from_optimization_ema_update_witness :
    ∃ c', alookup (learn_from_optimization {} "t" "u" "openai" "some text"
          100 150 (3/2) "balanced").provider_calibration "openai" = some c'
      ∧ c'.token_ratio = 0.3 * ((150 : ℚ) / (100 : ℚ))
          + 0.7 * ((alookup ({} : PIState).provider_calibration "openai").getD initCalib).token_ratio
      ∧ c'.cost_per_token = (if 0 < 150 then (3/2 : ℚ) / (150 : ℚ) else 0)
      ∧ (alookup ({} : PIState).provider_calibration "openai" = none →
          c'.token_ratio = 0.3 * ((150 : ℚ) / (100 : ℚ)) + 0.7 * 1) :=
  learn_from_optimization_ema_update {} "t" "u" "openai" "some text"
    100 150 (3/2) "balanced" rfl (by decide)

/-- C10: `learn_from_optimization` with learning enabled and
`tokens_estimated = 0` skips only the EMA update: `token_ratio` keeps the
value it had (1.0 for a freshly initialized provider), while
`sample_count` is still incremented by 1 and `cost_per_token` is still
overwritten with `cost/tokens_actual` (0 when `tokens_actual` is 0). -/
theorem learn_from_optimization_zero_estimated_skip (st : PIState)
    (ts user_id provider text : String) (tokens_estimated tokens_actual : ℕ)
    (cost : ℚ) (lvl : String)
    (hl : st.learning_enabled = true) (he : tokens_estimated = 0) :
    ∃ c', alookup (learn_from_optimization st ts user_id provider text
          tokens_estimated tokens_actual cost lvl).provider_calibration provider = some c'
      ∧ c'.token_ratio = ((alookup st.provider_calibration provider).getD initCalib).token_ratio
      ∧ c'.sample_count = ((alookup st.provider_calibration provider).getD initCalib).sample_count + 1
      ∧ c'.cost_per_token = (if 0 < tokens_actual then cost / (tokens_actual : ℚ) else 0) := by
  simp only [learn_from_optimization, hl, Bool.not_true, Bool.false_eq_true, if_false]
  rcases hcal : alookup st.provider_calibration provider with _ | c0
  · simp only [hcal, Option.isSome_none, Bool.false_eq_true, if_false]
    rw [alookup_updateFirst_key provider]
    case hf => intro kv; rfl
    rw [alookup_append_of_none _ hcal]
    simp only [alookup, if_pos rfl, Option.map_some, hcal, Option.getD_none]
    exact ⟨_, rfl, by norm_num [he], by norm_num [he, initCalib], by norm_num⟩
  · simp only [hcal, Option.isSome_some, if_true]
    rw [alookup_updateFirst_key provider]
    case hf => intro kv; rfl
    rw [hcal]
    simp only [Option.map_some, hcal, Option.getD_some]
    exact ⟨_, rfl, by norm_num [he], by norm_num [he], by norm_num⟩

/-- Witness for C10's theorem: a call for openai with estimated count 0. -/
theorem learn_from_optimization_zero_estimated_skip_witness :
    ∃ c', alookup (learn_from_optimization {} "t" "u" "openai" "some text"
          0 150 (3/2) "balanced").provider_calibration "openai" = some c'
      ∧ c'.token_ratio = ((alookup ({} : PIState).provider_calibration "openai").getD initCalib).token_ratio
      ∧ c'.sample_count = ((alookup ({} : PIState).provider_calibration "openai").getD initCalib).sample_count + 1
      ∧ c'.cost_per_token = (if 0 < 150 then (3/2 : ℚ) / (150 : ℚ) else 0) :=
  learn_from_optimization_zero_estimated_skip {} "t" "u" "openai" "some text"
    0 150 (3/2) "balanced" rfl rfl

/-- C7: every read operation degrades to a defined empty/zero result for a
user with no ledger entry (or an empty one): an all-zero prediction with
trend `"stable"`, empty anomaly and recommendation sequences, and an
efficiency result with score 0 and the explanatory message
`"Not enough data"` — none of them raises. -/
theorem unknown_user_degradation (eng : Engine) (user today : String)
    (month day lookback : ℕ) (bp : Option (List (String × SubTotal)))
    (h : alookup eng.user_usage user = none ∨ alookup eng.user_usage user = some []) :
    predict_monthly_cost eng today month day user = some zeroPrediction
    ∧ detect_anomalies eng user lookback = []
    ∧ recommend_cost_reduction eng user bp = some []
    ∧ get_efficiency_score eng user = some noDataScore := by
  rcases h with h | h <;>
    exact ⟨by simp [predict_monthly_cost, h], by simp [detect_anomalies, h],
           by simp [recommend_cost_reduction, h], by simp [get_efficiency_score, h]⟩

/-- C6: the affordability gate of `get_provider_recommendations` only
zeroes the `rank` field: (a) every returned entry whose `cost_usd` exceeds
the effective `budget_limit` has `rank = 0`, and (b) the returned top-3
list with `rank` erased is identical for any two budget limits (same text,
same priority) — over-budget entries are not excluded, and membership and
order are unaffected by the gate. -/
theorem affordability_gate_rank_only :
    (∀ (calibration : List (String × Calib)) (text : String) (prefs? : Option Prefs)
        (recs : List Recommendation),
      get_provider_recommendations calibration text prefs? = .ok recs →
      ∀ r ∈ recs, r.cost_usd > effectiveBudget prefs? → r.rank = 0)
    ∧ (∀ (calibration : List (String × Calib)) (text : String) (pr : Option String)
        (b₁ b₂ : Option ℚ) (l₁ l₂ : List Recommendation),
      get_provider_recommendations calibration text
        (some { priority := pr, budget_limit := b₁ }) = .ok l₁ →
      get_provider_recommendations calibration text
        (some { priority := pr, budget_limit := b₂ }) = .ok l₂ →
      l₁.map eraseRank = l₂.map eraseRank) := by
  constructor
  · intro calibration text prefs? recs hok r hr hbudget
    unfold get_provider_recommendations at hok
    simp only [] at hok
    rcases hmap : mapExcept (buildRecommendation calibration text
        (prefs?.getD { priority := some "cost", budget_limit := some 1 })) PROVIDERS with e | rs
    · rw [hmap] at hok
      simp [Bind.bind, Except.bind] at hok
    · rw [hmap] at hok
      simp only [Bind.bind, Except.bind, Pure.pure, Except.pure, Except.ok.injEq] at hok
      -- recs = (sorted rs).take 3, hence r comes from rs
      have hrs : r ∈ rs := by
        rw [← hok] at hr
        have h1 := List.take_subset 3 _ hr
        split at h1 <;> [skip; split at h1] <;> [skip; skip; split at h1] <;>
          exact mem_stableSortBy.mp h1
      rcases mapExcept_ok_mem hmap r hrs with ⟨kv, _, hbuild⟩
      unfold buildRecommendation at hbuild
      rcases hest : estimate_provider_tokens calibration text kv.1 none with e | est
      · rw [hest] at hbuild
        simp [Bind.bind, Except.bind] at hbuild
      · rw [hest] at hbuild
        simp only [Bind.bind, Except.bind] at hbuild
        rcases hrank : calculateRank est
            (prefs?.getD { priority := some "cost", budget_limit := some 1 }) with e | rk
        · rw [hrank] at hbuild
          simp [Bind.bind, Except.bind] at hbuild
        · rw [hrank] at hbuild
          simp only [Bind.bind, Except.bind, Pure.pure, Except.pure, Except.ok.injEq] at hbuild
          -- r is the built record: its cost_usd is est's, its rank is rk
          have hcost : r.cost_usd = est.cost_usd := by rw [← hbuild]
          have hrankr : r.rank = rk := by rw [← hbuild]
          unfold calculateRank at hrank
          rw [if_pos (by rw [← hcost]; exact hbudget)] at hrank
          simp only [Pure.pure, Except.pure, Except.ok.injEq] at hrank
          rw [hrankr, ← hrank]
  · intro calibration text pr b₁ b₂ l₁ l₂ h₁ h₂
    unfold get_provider_recommendations at h₁ h₂
    simp only [Option.getD_some] at h₁ h₂
    rcases hm₁ : mapExcept (buildRecommendation calibration text
        { priority := pr, budget_limit := b₁ }) PROVIDERS with e | rs₁
    · rw [hm₁] at h₁
      simp [Bind.bind, Except.bind] at h₁
    rcases hm₂ : mapExcept (buildRecommendation calibration text
        { priority := pr, budget_limit := b₂ }) PROVIDERS with e | rs₂
    · rw [hm₂] at h₂
      simp [Bind.bind, Except.bind] at h₂
    rw [hm₁] at h₁
    rw [hm₂] at h₂
    simp only [Bind.bind, Except.bind, Pure.pure, Except.pure, Except.ok.injEq] at h₁ h₂
    have key : rs₁.map eraseRank = rs₂.map eraseRank := by
      refine mapExcept_ok_map_eq hm₁ hm₂ ?_
      intro kv hkv b b' hb hb'
      unfold buildRecommendation at hb hb'
      rcases hest : estimate_provider_tokens calibration text kv.1 none with e | est
      · rw [hest] at hb
        simp [Bind.bind, Except.bind] at hb
      rw [hest] at hb hb'
      simp only [Bind.bind, Except.bind] at hb hb'
      rcases hr₁ : calculateRank est { priority := pr, budget_limit := b₁ } with e | rk₁
      · rw [hr₁] at hb
        simp [Bind.bind, Except.bind] at hb
      rcases hr₂ : calculateRank est { priority := pr, budget_limit := b₂ } with e | rk₂
      · rw [hr₂] at hb'
        simp [Bind.bind, Except.bind] at hb'
      rw [hr₁] at hb
      rw [hr₂] at hb'
      simp only [Pure.pure, Except.pure, Except.ok.injEq] at hb hb'
      rw [← hb, ← hb']
      simp [eraseRank, getRecommendationBadge]
    rw [← h₁, ← h₂, List.map_take, List.map_take]
    by_cases hc : pr.getD "cost" = "cost"
    · rw [if_pos hc, if_pos hc,
        map_stableSortBy eraseRank (fun a b => decide (a.cost_usd < b.cost_usd))
          (fun a b => decide (a.cost_usd < b.cost_usd)) (fun a b => rfl),
        map_stableSortBy eraseRank (fun a b => decide (a.cost_usd < b.cost_usd))
          (fun a b => decide (a.cost_usd < b.cost_usd)) (fun a b => rfl),
        key]
    by_cases hs : pr.getD "cost" = "speed"
    · rw [if_neg hc, if_neg hc, if_pos hs, if_pos hs,
        map_stableSortBy eraseRank
          (fun a b => decide (providerSpeed a.provider < providerSpeed b.provider))
          (fun a b => decide (providerSpeed a.provider < providerSpeed b.provider))
          (fun a b => rfl),
        map_stableSortBy eraseRank
          (fun a b => decide (providerSpeed a.provider < providerSpeed b.provider))
          (fun a b => decide (providerSpeed a.provider < providerSpeed b.provider))
          (fun a b => rfl),
        key]
    by_cases hq : pr.getD "cost" = "quality"
    · rw [if_neg hc, if_neg hc, if_neg hs, if_neg hs, if_pos hq, if_pos hq,
        map_stableSortBy eraseRank
          (fun a b => decide (providerQuality a.provider < providerQuality b.provider))
          (fun a b => decide (providerQuality a.provider < providerQuality b.provider))
          (fun a b => rfl),
        map_stableSortBy eraseRank
          (fun a b => decide (providerQuality a.provider < providerQuality b.provider))
          (fun a b => decide (providerQuality a.provider < providerQuality b.provider))
          (fun a b => rfl),
        key]
    · rw [if_neg hc, if_neg hc, if_neg hs, if_neg hs, if_neg hq, if_neg hq,
        map_stableSortBy eraseRank
          (fun a b => decide (b.tokens_per_dollar < a.tokens_per_dollar))
          (fun a b => decide (b.tokens_per_dollar < a.tokens_per_dollar))
          (fun a b => rfl),
        map_stableSortBy eraseRank
          (fun a b => decide (b.tokens_per_dollar < a.tokens_per_dollar))
          (fun a b => decide (b.tokens_per_dollar < a.tokens_per_dollar))
          (fun a b => rfl),
        key]

set_option maxRecDepth 100000 in
/-- Witness for C6's theorem: the text `"abcdefgh"` with priority
`"speed"` and budget 0.00001 — the returned top-3 contains over-budget
providers (openai and azure, cost 0.0001) — and the same text and
priority under budgets 1 and 0.00001. -/
theorem affordability_gate_rank_only_witness :
    (∀ r ∈ (get_provider_recommendations [] "abcdefgh"
        (some { priority := some "speed", budget_limit := some (1/100000) })).toOption.getD [],
      r.cost_usd > effectiveBudget
        (some { priority := some "speed", budget_limit := some (1/100000) }) → r.rank = 0)
    ∧ ((get_provider_recommendations [] "abcdefgh"
        (some { priority := some "speed", budget_limit := some 1 })).toOption.getD []).map eraseRank
      = ((get_provider_recommendations [] "abcdefgh"
        (some { priority := some "speed", budget_limit := some (1/100000) })).toOption.getD []).map eraseRank :=
  ⟨affordability_gate_rank_only.1 [] "abcdefgh"
      (some { priority := some "speed", budget_limit := some (1/100000) }) _
      (by with_unfolding_all rfl),
   affordability_gate_rank_only.2 [] "abcdefgh"
      (some "speed") (some 1) (some (1/100000)) _ _
      (by with_unfolding_all rfl) (by with_unfolding_all rfl)⟩

/-- Witness for C7's theorem: a fresh engine and an unknown user. -/
theorem unknown_user_degradation_witness :
    predict_monthly_cost {} "2026-10-12" 10 12 "ghost" = some zeroPrediction
    ∧ detect_anomalies {} "ghost" 7 = []
    ∧ recommend_cost_reduction {} "ghost" none = some []
    ∧ get_efficiency_score {} "ghost" = some noDataScore :=
  unknown_user_degradation {} "ghost" "2026-10-12" 10 12 7 none (Or.inl rfl)

theorem updateAdd_cost_sum (k : String) (c : ℚ) (t : ℕ) (d : List (String × SubTotal))
    (h : (alookup d k).isSome) :
    ((updateFirst (fun kv => kv.1 = k)
        (fun kv => (kv.1, ⟨kv.2.cost + c, kv.2.tokens + t⟩)) d).map
      (fun kv => kv.2.cost)).sum = (d.map (fun kv => kv.2.cost)).sum + c := by
  induction d with
  | nil => simp [alookup] at h
  | cons kv rest ih =>
    obtain ⟨k', v⟩ := kv
    by_cases hk : k' = k
    · simp [updateFirst, hk]
      ring
    · rw [alookup, if_neg hk] at h
      simp only [updateFirst, show (decide ((k', v).1 = k)) = false by simp [hk],
        Bool.false_eq_true, if_false, List.map_cons, List.sum_cons, ih h]
      ring

theorem updateAdd_tokens_sum (k : String) (c : ℚ) (t : ℕ) (d : List (String × SubTotal))
    (h : (alookup d k).isSome) :
    ((updateFirst (fun kv => kv.1 = k)
        (fun kv => (kv.1, ⟨kv.2.cost + c, kv.2.tokens + t⟩)) d).map
      (fun kv => kv.2.tokens)).sum = (d.map (fun kv => kv.2.tokens)).sum + t := by
  induction d with
  | nil => simp [alookup] at h
  | cons kv rest ih =>
    obtain ⟨k', v⟩ := kv
    by_cases hk : k' = k
    · simp [updateFirst, hk]
      omega
    · rw [alookup, if_neg hk] at h
      simp only [updateFirst, show (decide ((k', v).1 = k)) = false by simp [hk],
        Bool.false_eq_true, if_false, List.map_cons, List.sum_cons, ih h]
      omega

theorem bumpAssoc_cost_sum (k : String) (c : ℚ) (t : ℕ) (d : List (String × SubTotal)) :
    ((bumpAssoc k c t d).map (fun kv => kv.2.cost)).sum
      = (d.map (fun kv => kv.2.cost)).sum + c := by
  unfold bumpAssoc
  rcases hl : alookup d k with _ | v
  · simp only [hl, Option.isSome_none, Bool.false_eq_true, if_false]
    rw [updateAdd_cost_sum k c t _ (by
      rw [alookup_append_of_none _ hl]
      simp [alookup])]
    simp
  · simp only [hl, Option.isSome_some, if_true]
    exact updateAdd_cost_sum k c t d (by simp [hl])

theorem bumpAssoc_tokens_sum (k : String) (c : ℚ) (t : ℕ) (d : List (String × SubTotal)) :
    ((bumpAssoc k c t d).map (fun kv => kv.2.tokens)).sum
      = (d.map (fun kv => kv.2.tokens)).sum + t := by
  unfold bumpAssoc
  rcases hl : alookup d k with _ | v
  · simp only [hl, Option.isSome_none, Bool.false_eq_true, if_false]
    rw [updateAdd_tokens_sum k c t _ (by
      rw [alookup_append_of_none _ hl]
      simp [alookup])]
    simp
  · simp only [hl, Option.isSome_some, if_true]
    exact updateAdd_tokens_sum k c t d (by simp [hl])

theorem applyEvent_recInv (ts p : String) (t : ℕ) (c : ℚ) (lvl : String)
    (r : DailyRecord) (h : RecInv r) : RecInv (applyEvent ts p t c lvl r) := by
  obtain ⟨h1, h2, h3, h4, h5, h6⟩ := h
  refine ⟨?_, ?_, ?_, ?_, ?_, ?_⟩ <;>
    simp only [applyEvent, List.map_append, List.sum_append, List.map_cons, List.sum_cons,
      List.map_nil, List.sum_nil, bumpAssoc_cost_sum, bumpAssoc_tokens_sum,
      h1, h2, h3, h4, h5, h6] <;> ring

theorem freshRecord_recInv (today : String) : RecInv (freshRecord today) := by
  simp [RecInv, freshRecord]

theorem record_usage_preserves_engInv (eng : Engine) (today ts user_id provider : String)
    (tokens : ℕ) (cost : ℚ) (lvl : String) (h : EngInv eng) :
    EngInv (record_usage eng today ts user_id provider tokens cost lvl) := by
  unfold record_usage
  by_cases hl : eng.learning_enabled
  · simp only [hl, Bool.not_true, Bool.false_eq_true, if_false]
    intro kv hkv r hr
    rcases mem_updateFirst hkv with hkv' | ⟨kv₀, hkv₀, _, rfl⟩
    · -- the pair was not the updated one
      have : kv ∈ eng.user_usage ∨ kv = (user_id, []) := by
        by_cases hp : (alookup eng.user_usage user_id).isSome
        · simp only [hp, if_true] at hkv'
          exact Or.inl hkv'
        · simp only [hp, Bool.false_eq_true, if_false] at hkv'
          rcases List.mem_append.mp hkv' with h' | h'
          · exact Or.inl h'
          · simp at h'
            exact Or.inr h'
      rcases this with h' | h'
      · exact h kv h' r hr
      · rw [h'] at hr
        simp at hr
    · -- kv is the updated pair for user_id
      have hkv₀mem : kv₀ ∈ eng.user_usage ∨ kv₀ = (user_id, []) := by
        by_cases hp : (alookup eng.user_usage user_id).isSome
        · simp only [hp, if_true] at hkv₀
          exact Or.inl hkv₀
        · simp only [hp, Bool.false_eq_true, if_false] at hkv₀
          rcases List.mem_append.mp hkv₀ with h' | h'
          · exact Or.inl h'
          · simp at h'
            exact Or.inr h'
      have hrecs : ∀ r' ∈ kv₀.2, RecInv r' := by
        rcases hkv₀mem with h' | h'
        · exact h kv₀ h'
        · rw [h']
          simp
      simp only at hr
      rcases mem_updateFirst hr with hr' | ⟨r₀, hr₀, _, rfl⟩
      · -- record not updated: it is an old record or the fresh one
        rcases (by
          by_cases hf : (kv₀.2.find? (fun rec => rec.date = today)).isSome
          · simp only [hf, if_true] at hr'
            exact Or.inl hr'
          · simp only [hf, Bool.false_eq_true, if_false] at hr'
            rcases List.mem_append.mp hr' with h' | h'
            · exact Or.inl h'
            · simp at h'
              exact Or.inr h' :
          r ∈ kv₀.2 ∨ r = freshRecord today) with h' | h'
        · exact hrecs r h'
        · rw [h']
          exact freshRecord_recInv today
      · -- record updated by applyEvent
        rcases (by
          by_cases hf : (kv₀.2.find? (fun rec => rec.date = today)).isSome
          · simp only [hf, if_true] at hr₀
            exact Or.inl hr₀
          · simp only [hf, Bool.false_eq_true, if_false] at hr₀
            rcases List.mem_append.mp hr₀ with h' | h'
            · exact Or.inl h'
            · simp at h'
              exact Or.inr h' :
          r₀ ∈ kv₀.2 ∨ r₀ = freshRecord today) with h' | h'
        · exact applyEvent_recInv _ _ _ _ _ _ (hrecs r₀ h')
        · rw [h']
          exact applyEvent_recInv _ _ _ _ _ _ (freshRecord_recInv today)
  · simp only [hl]
    simpa using h

theorem step_ledger (today ts user_id : String) (r : DailyRecord) (hdate : r.date = today)
    (ev : Ev) :
    record_usage { user_usage := [(user_id, [r])], learning_enabled := true }
      today ts user_id ev.provider ev.tokens ev.cost ev.level
      = { user_usage := [(user_id,
            [applyEvent ts ev.provider ev.tokens ev.cost ev.level r])],
          learning_enabled := true } := by
  simp [record_usage, alookup, updateFirst, List.find?, hdate]

theorem step_initial (today ts user_id : String) (ev : Ev) :
    record_usage ({} : Engine) today ts user_id ev.provider ev.tokens ev.cost ev.level
      = { user_usage := [(user_id,
            [applyEvent ts ev.provider ev.tokens ev.cost ev.level (freshRecord today)])],
          learning_enabled := true } := by
  simp [record_usage, alookup, updateFirst, List.find?, freshRecord]

theorem applyEvent_date (ts p : String) (t : ℕ) (c : ℚ) (lvl : String) (r : DailyRecord) :
    (applyEvent ts p t c lvl r).date = r.date := rfl

theorem foldl_step_single (today ts user_id : String) (evs : List Ev) :
    ∀ (r : DailyRecord), r.date = today →
    evs.foldl (fun eng ev =>
        record_usage eng today ts user_id ev.provider ev.tokens ev.cost ev.level)
      { user_usage := [(user_id, [r])], learning_enabled := true }
      = { user_usage := [(user_id,
            [evs.foldl (fun acc ev =>
              applyEvent ts ev.provider ev.tokens ev.cost ev.level acc) r])],
          learning_enabled := true } := by
  induction evs with
  | nil => intro r hdate; rfl
  | cons ev rest ih =>
    intro r hdate
    rw [List.foldl_cons, step_ledger today ts user_id r hdate ev, List.foldl_cons]
    exact ih _ (by rw [applyEvent_date, hdate])

theorem foldl_applyEvent_cost (ts : String) (evs : List Ev) :
    ∀ r : DailyRecord,
      (evs.foldl (fun acc ev =>
        applyEvent ts ev.provider ev.tokens ev.cost ev.level acc) r).total_cost
      = r.total_cost + (evs.map (·.cost)).sum := by
  induction evs with
  | nil => intro r; simp
  | cons ev rest ih =>
    intro r
    rw [List.foldl_cons, ih, List.map_cons, List.sum_cons]
    show r.total_cost + ev.cost + _ = _
    ring

theorem foldl_applyEvent_tokens (ts : String) (evs : List Ev) :
    ∀ r : DailyRecord,
      (evs.foldl (fun acc ev =>
        applyEvent ts ev.provider ev.tokens ev.cost ev.level acc) r).total_tokens
      = r.total_tokens + (evs.map (·.tokens)).sum := by
  induction evs with
  | nil => intro r; simp
  | cons ev rest ih =>
    intro r
    rw [List.foldl_cons, ih, List.map_cons, List.sum_cons]
    show r.total_tokens + ev.tokens + _ = _
    omega

theorem foldl_applyEvent_date (ts : String) (evs : List Ev) :
    ∀ r : DailyRecord,
      (evs.foldl (fun acc ev =>
        applyEvent ts ev.provider ev.tokens ev.cost ev.level acc) r).date = r.date := by
  induction evs with
  | nil => intro r; rfl
  | cons ev rest ih =>
    intro r
    rw [List.foldl_cons, ih, applyEvent_date]

theorem foldl_applyEvent_recInv (ts : String) (evs : List Ev) :
    ∀ r : DailyRecord, RecInv r →
      RecInv (evs.foldl (fun acc ev =>
        applyEvent ts ev.provider ev.tokens ev.cost ev.level acc) r) := by
  induction evs with
  | nil => intro r h; exact h
  | cons ev rest ih =>
    intro r h
    rw [List.foldl_cons]
    exact ih _ (applyEvent_recInv _ _ _ _ _ _ h)

/-- C9: ledger additivity.  (1) Every `record_usage` call preserves the
engine invariant that each DailyRecord's `total_cost`/`total_tokens` equal
the sums over its recorded events and that the `by_provider`/`by_level`
sub-totals each sum to those totals.  (2) After any non-empty sequence of
`record_usage` calls for the same user and day (learning enabled, fresh
engine), the resulting single DailyRecord has `total_cost` equal to the
sum of the recorded costs and `total_tokens` equal to the sum of the
recorded token counts, and satisfies the invariant. -/
theorem record_usage_additivity :
    (∀ (eng : Engine) (today ts user_id provider : String) (tokens : ℕ) (cost : ℚ)
        (lvl : String),
      EngInv eng → EngInv (record_usage eng today ts user_id provider tokens cost lvl))
    ∧ (∀ (today ts user_id : String) (evs : List Ev), evs ≠ [] →
        ∃ rec, alookup (applySeq today ts user_id evs).user_usage user_id = some [rec]
          ∧ rec.date = today
          ∧ rec.total_cost = (evs.map (·.cost)).sum
          ∧ rec.total_tokens = (evs.map (·.tokens)).sum
          ∧ RecInv rec) := by
  constructor
  · exact record_usage_preserves_engInv
  · intro today ts user_id evs hne
    rcases evs with _ | ⟨ev, rest⟩
    · exact absurd rfl hne
    unfold applySeq
    rw [List.foldl_cons, step_initial today ts user_id ev,
      foldl_step_single today ts user_id rest _ (by rw [applyEvent_date]; rfl)]
    refine ⟨List.foldl (fun acc ev => applyEvent ts ev.provider ev.tokens ev.cost ev.level acc)
        (applyEvent ts ev.provider ev.tokens ev.cost ev.level (freshRecord today)) rest,
      by simp [alookup], ?_, ?_, ?_, ?_⟩
    · rw [foldl_applyEvent_date, applyEvent_date]
      rfl
    · rw [foldl_applyEvent_cost]
      show (freshRecord today).total_cost + ev.cost + _ = _
      simp [freshRecord]
    · rw [foldl_applyEvent_tokens]
      show (freshRecord today).total_tokens + ev.tokens + _ = _
      simp [freshRecord]
    · exact foldl_applyEvent_recInv _ _ _
        (applyEvent_recInv _ _ _ _ _ _ (freshRecord_recInv today))

/-- Witness for C9's theorem: one call on the fresh engine, and a
two-event same-day sequence (openai 100 tokens at cost 5, groq 50 tokens
at cost 3). -/
theorem record_usage_additivity_witness :
    EngInv (record_usage {} "2026-10-12" "2026-10-12T10:00:00" "u" "openai" 100 5 "balanced")
    ∧ ∃ rec, alookup (applySeq "2026-10-12" "2026-10-12T10:00:00" "u"
          [⟨"openai", 100, 5, "balanced"⟩, ⟨"groq", 50, 3, "aggressive"⟩]).user_usage "u"
        = some [rec]
      ∧ rec.date = "2026-10-12"
      ∧ rec.total_cost = ([⟨"openai", 100, 5, "balanced"⟩,
          (⟨"groq", 50, 3, "aggressive"⟩ : Ev)].map (·.cost)).sum
      ∧ rec.total_tokens = ([⟨"openai", 100, 5, "balanced"⟩,
          (⟨"groq", 50, 3, "aggressive"⟩ : Ev)].map (·.tokens)).sum
      ∧ RecInv rec :=
  ⟨record_usage_additivity.1 {} "2026-10-12" "2026-10-12T10:00:00" "u" "openai" 100 5 "balanced"
      (by intro kv hkv; simp at hkv),
   record_usage_additivity.2 "2026-10-12" "2026-10-12T10:00:00" "u"
      [⟨"openai", 100, 5, "balanced"⟩, ⟨"groq", 50, 3, "aggressive"⟩] (by simp)⟩

end Fortress
